import Mathlib

/-!
Verification of the focussessions session store, state machine and
statistics aggregator.

Shallow embedding conventions:
* Go `time.Time` values are modelled as `Int` Unix seconds; the Go zero
  time (`IsZero`) is modelled as the value `0`.  `time.Duration`
  arithmetic (`EndTime.Sub(StartTime).Minutes()` followed by an `int`
  conversion, and `time.Since(...).Seconds()` followed by `int`) truncates
  toward zero, which at whole-second granularity is `Int.tdiv`.
* Go `int` is modelled as `Int`; Go integer division and remainder
  truncate toward zero, i.e. `Int.tdiv` / `Int.tmod`.
* The JSON files are modelled by the list of records they hold; the three
  observable conditions of a read (file missing, malformed contents,
  well-formed contents) are modelled by `FileState`.
* The derivation of the denormalized bucket keys (`date`, `week`,
  `month`, `year`) from the wall clock (`time.Now().Format`, `ISOWeek`)
  is abstracted into an explicit `Calendar` handle: no claim depends on
  calendar arithmetic, only on the fields being carried along.
-/

/-- `models.Session` (internal/models/session.go). -/
structure Session where
  ID : String
  StartTime : Int
  EndTime : Int
  Duration : Int
  Completed : Bool
  Date : String
  Week : Int
  Month : String
  Year : Int
  Active : Bool
  ElapsedSeconds : Int
  Paused : Bool
deriving DecidableEq, Repr

/-- `models.Config`. -/
structure Config where
  SessionDuration : Int
  DailySessionGoal : Int
  WorkStartHour : Int
  WorkEndHour : Int
deriving DecidableEq, Repr

/-- `models.DefaultConfig`. -/
def DefaultConfig : Config :=
  { SessionDuration := 60, DailySessionGoal := 8, WorkStartHour := 8, WorkEndHour := 16 }

/-- `models.DayStats`. -/
structure DayStats where
  Date : String
  SessionsCount : Int
  TotalMinutes : Int
  Sessions : List Session
deriving DecidableEq, Repr

/-- `models.WeekStats`. -/
structure WeekStats where
  Week : Int
  Year : Int
  SessionsCount : Int
  TotalMinutes : Int
  DailyStats : List DayStats
deriving DecidableEq, Repr

/-- `models.MonthStats`. -/
structure MonthStats where
  Month : String
  Year : Int
  SessionsCount : Int
  TotalMinutes : Int
  WeeklyStats : List WeekStats
deriving DecidableEq, Repr

/-- `models.YearStats`.  The `MonthlyStats` sub-rollups of `GetYearStats`
(an independent recomputation via `GetMonthStats` driven by re-parsing the
`month` bucket key) are not modelled: no claim concerns them, and the
aggregate fields below are computed before that grouping in the source. -/
structure YearStats where
  Year : Int
  SessionsCount : Int
  TotalMinutes : Int
deriving DecidableEq, Repr

/-- `storage.SaveSession` on the decoded collection: replace the first
record with the same `ID` in place, otherwise append at the end. -/
def SaveSession : List Session → Session → List Session
  | [], s => [s]
  | t :: rest, s => if t.ID = s.ID then s :: rest else t :: SaveSession rest s

/-- `storage.GetActiveSession` on the decoded collection: first record
with `Active && !Completed`, if any. -/
def GetActiveSession (sessions : List Session) : Option Session :=
  sessions.find? (fun s => s.Active && !s.Completed)

/-- `storage.DeactivateAllSessions` on the decoded collection. -/
def DeactivateAllSessions (sessions : List Session) : List Session :=
  sessions.map (fun s => { s with Active := false })

/-- `storage.GetSessionsByDate`. -/
def GetSessionsByDate (sessions : List Session) (date : String) : List Session :=
  sessions.filter (fun s => s.Date = date)

/-- `storage.GetWeekSessions`. -/
def GetWeekSessions (sessions : List Session) (year week : Int) : List Session :=
  sessions.filter (fun s => s.Year = year && s.Week = week)

/-- Zero-padded decimal of a natural number, at least `w` characters. -/
def padNat (w : Nat) (n : Nat) : String :=
  let s := toString n
  String.mk (List.replicate (w - s.length) '0') ++ s

/-- Go `fmt.Sprintf("%04d-%02d", year, month)` for the month bucket key
(negative operands never arise in the claims). -/
def monthKey (year month : Int) : String :=
  (if year < 0 then "-" ++ padNat 3 year.natAbs else padNat 4 year.natAbs)
    ++ "-"
    ++ (if month < 0 then "-" ++ padNat 1 month.natAbs else padNat 2 month.natAbs)

/-- `storage.GetMonthSessions`. -/
def GetMonthSessions (sessions : List Session) (year month : Int) : List Session :=
  sessions.filter (fun s => s.Month = monthKey year month)

/-- `storage.GetYearSessions`. -/
def GetYearSessions (sessions : List Session) (year : Int) : List Session :=
  sessions.filter (fun s => s.Year = year)

/-- The inline actual-minutes computation of `GetDayStats` (the three
sequential statements: quotient of `ElapsedSeconds` by 60, the
conditional overwrite from the timestamps, the conditional fallback to
`Duration`). -/
def dayActualMinutes (s : Session) : Int :=
  let a0 := Int.tdiv s.ElapsedSeconds 60
  let a1 := if a0 = 0 ∧ s.EndTime ≠ 0 ∧ s.StartTime ≠ 0
            then Int.tdiv (s.EndTime - s.StartTime) 60 else a0
  if a1 = 0 then s.Duration else a1

/-- The identical inline computation in the top-level loop of `GetWeekStats`. -/
def weekActualMinutes (s : Session) : Int :=
  let a0 := Int.tdiv s.ElapsedSeconds 60
  let a1 := if a0 = 0 ∧ s.EndTime ≠ 0 ∧ s.StartTime ≠ 0
            then Int.tdiv (s.EndTime - s.StartTime) 60 else a0
  if a1 = 0 then s.Duration else a1

/-- The identical inline computation in the per-day loop of `GetWeekStats`. -/
def weekDayActualMinutes (s : Session) : Int :=
  let a0 := Int.tdiv s.ElapsedSeconds 60
  let a1 := if a0 = 0 ∧ s.EndTime ≠ 0 ∧ s.StartTime ≠ 0
            then Int.tdiv (s.EndTime - s.StartTime) 60 else a0
  if a1 = 0 then s.Duration else a1

/-- The identical inline computation in the top-level loop of `GetMonthStats`. -/
def monthActualMinutes (s : Session) : Int :=
  let a0 := Int.tdiv s.ElapsedSeconds 60
  let a1 := if a0 = 0 ∧ s.EndTime ≠ 0 ∧ s.StartTime ≠ 0
            then Int.tdiv (s.EndTime - s.StartTime) 60 else a0
  if a1 = 0 then s.Duration else a1

/-- The identical inline computation in the per-week loop of `GetMonthStats`. -/
def monthWeekActualMinutes (s : Session) : Int :=
  let a0 := Int.tdiv s.ElapsedSeconds 60
  let a1 := if a0 = 0 ∧ s.EndTime ≠ 0 ∧ s.StartTime ≠ 0
            then Int.tdiv (s.EndTime - s.StartTime) 60 else a0
  if a1 = 0 then s.Duration else a1

/-- The identical inline computation in the loop of `GetYearStats`. -/
def yearActualMinutes (s : Session) : Int :=
  let a0 := Int.tdiv s.ElapsedSeconds 60
  let a1 := if a0 = 0 ∧ s.EndTime ≠ 0 ∧ s.StartTime ≠ 0
            then Int.tdiv (s.EndTime - s.StartTime) 60 else a0
  if a1 = 0 then s.Duration else a1

/-- The running `(completedCount, totalMinutes)` accumulation shared by
the aggregator loops, parameterized by that loop's inline actual-minutes
computation. -/
def statsLoop (actual : Session → Int) (acc : Int × Int) (l : List Session) : Int × Int :=
  l.foldl (fun acc s => if s.Completed then (acc.1 + 1, acc.2 + actual s) else acc) acc

/-- `storage.GetDayStats`. -/
def GetDayStats (sessions : List Session) (date : String) : DayStats :=
  let daySessions := GetSessionsByDate sessions date
  let ct := statsLoop dayActualMinutes (0, 0) daySessions
  { Date := date, SessionsCount := ct.1, TotalMinutes := ct.2, Sessions := daySessions }

/-- `storage.GetWeekStats`.  The Go source groups completed sessions into
`dateMap`, a Go map whose iteration order is unspecified; here the per-day
sub-rollups are emitted in order of first occurrence of each date, which
fixes only the (unspecified) order of `DailyStats`, not any field of any
sub-rollup. -/
def GetWeekStats (sessions : List Session) (year week : Int) : WeekStats :=
  let weekSessions := GetWeekSessions sessions year week
  let completed := weekSessions.filter (fun s => s.Completed)
  let ct := statsLoop weekActualMinutes (0, 0) weekSessions
  let dates := (completed.map (fun s => s.Date)).dedup
  { Week := week, Year := year, SessionsCount := ct.1, TotalMinutes := ct.2,
    DailyStats := dates.map (fun d =>
      let dateSessions := completed.filter (fun s => s.Date = d)
      { Date := d, SessionsCount := dateSessions.length,
        TotalMinutes := (dateSessions.map weekDayActualMinutes).sum,
        Sessions := dateSessions }) }

/-- `storage.GetMonthStats`, with the same first-occurrence ordering
convention for the Go map `weekMap` as in `GetWeekStats`. -/
def GetMonthStats (sessions : List Session) (year month : Int) : MonthStats :=
  let monthSessions := GetMonthSessions sessions year month
  let completed := monthSessions.filter (fun s => s.Completed)
  let ct := statsLoop monthActualMinutes (0, 0) monthSessions
  let weeks := (completed.map (fun s => s.Week)).dedup
  { Month := monthKey year month, Year := year, SessionsCount := ct.1, TotalMinutes := ct.2,
    WeeklyStats := weeks.map (fun w =>
      let weekSessions := completed.filter (fun s => s.Week = w)
      { Week := w, Year := year, SessionsCount := weekSessions.length,
        TotalMinutes := (weekSessions.map monthWeekActualMinutes).sum,
        DailyStats := [] }) }

/-- `storage.GetYearStats` (aggregate fields; see `YearStats`). -/
def GetYearStats (sessions : List Session) (year : Int) : YearStats :=
  let yearSessions := GetYearSessions sessions year
  let ct := statsLoop yearActualMinutes (0, 0) yearSessions
  { Year := year, SessionsCount := ct.1, TotalMinutes := ct.2 }

/-- The claim's statement of the actual-minutes precedence, read
literally: the whole-minute timestamp difference is used whenever the
quotient is zero and both timestamps are set. -/
def claimActualMinutes (s : Session) : Int :=
  if Int.tdiv s.ElapsedSeconds 60 ≠ 0 then Int.tdiv s.ElapsedSeconds 60
  else if s.EndTime ≠ 0 ∧ s.StartTime ≠ 0 then Int.tdiv (s.EndTime - s.StartTime) 60
  else s.Duration

/-- The amended precedence: as the claim states it, except that the
timestamp difference is used only when it is itself a nonzero number of
whole minutes; otherwise the planned duration wins. -/
def amendedActualMinutes (s : Session) : Int :=
  if Int.tdiv s.ElapsedSeconds 60 ≠ 0 then Int.tdiv s.ElapsedSeconds 60
  else if s.EndTime ≠ 0 ∧ s.StartTime ≠ 0 ∧ Int.tdiv (s.EndTime - s.StartTime) 60 ≠ 0 then
    Int.tdiv (s.EndTime - s.StartTime) 60
  else s.Duration

theorem dayActual_eq_amended (s : Session) :
    dayActualMinutes s = amendedActualMinutes s := by
  unfold dayActualMinutes amendedActualMinutes
  by_cases h0 : Int.tdiv s.ElapsedSeconds 60 = 0
  · by_cases he : s.EndTime = 0
    · simp [h0, he]
    · by_cases hs : s.StartTime = 0
      · simp [h0, he, hs]
      · by_cases hd : Int.tdiv (s.EndTime - s.StartTime) 60 = 0
        · simp [h0, he, hs, hd]
        · simp [h0, he, hs, hd]
  · simp [h0]

theorem statsLoop_eq (actual : Session → Int) (l : List Session) (c t : Int) :
    statsLoop actual (c, t) l =
      (c + ((l.filter (fun s => s.Completed)).length : Int),
       t + ((l.filter (fun s => s.Completed)).map actual).sum) := by
  induction l generalizing c t with
  | nil => simp [statsLoop]
  | cons s rest ih =>
    have hstep : statsLoop actual (c, t) (s :: rest)
        = statsLoop actual (if s.Completed then (c + 1, t + actual s) else (c, t)) rest := by
      simp [statsLoop]
    rw [hstep]
    by_cases h : s.Completed = true
    · rw [if_pos h, ih]
      simp only [List.filter_cons, h, if_pos, List.length_cons, List.map_cons, List.sum_cons]
      refine Prod.ext ?_ ?_
      · push_cast; ring
      · simp; ring
    · rw [if_neg h, ih]
      simp only [List.filter_cons, h, if_neg]
      simp [h]

theorem weekActual_eq_amended (s : Session) :
    weekActualMinutes s = amendedActualMinutes s := dayActual_eq_amended s

theorem rollup_total_eq_sum (actual : Session → Int)
    (h : ∀ s, actual s = amendedActualMinutes s) (l : List Session) :
    (statsLoop actual (0, 0) l).2 =
      ((l.filter (fun s => s.Completed)).map amendedActualMinutes).sum := by
  rw [statsLoop_eq]
  simp [funext h]

/-- A completed session whose elapsed quotient is zero and whose
timestamps are set thirty seconds apart: the claim's literal precedence
yields the timestamp difference, 0 minutes, but the rollup adds the
planned 25 minutes. -/
def cexC1 : Session :=
  { ID := "c1", StartTime := 100, EndTime := 130, Duration := 25, Completed := true,
    Date := "2024-03-05", Week := 10, Month := "2024-03", Year := 2024,
    Active := false, ElapsedSeconds := 30, Paused := false }

/-- C1 counterexample: on a completed session with `elapsedSeconds = 30`
(quotient 0) and both timestamps set 30 seconds apart, the claimed
precedence gives 0 actual minutes, yet the day rollup counts the planned
25 minutes — the code falls back to the planned duration whenever the
timestamp difference is below one whole minute, which the claim's
precedence does not. -/
theorem C1_claim_counterexample :
    claimActualMinutes cexC1 = 0 ∧
      (GetDayStats [cexC1] "2024-03-05").TotalMinutes = 25 ∧
      cexC1.Completed = true ∧ (0 : Int) ≠ 25 := by
  refine ⟨by decide, by decide, rfl, by decide⟩

/-- C1 (amended): every rollup level (day, week and its per-day
sub-rollups, month and its per-week sub-rollups, year) computes actual
minutes by one fixed precedence — `elapsedSeconds/60` (truncated) if
nonzero; else the whole-minute `endTime - startTime` difference if both
timestamps are set and that difference is nonzero; else the planned
duration — and the four top-level totals are the sums of that single
function over their completed filtered sessions; a completed session with
`elapsedSeconds = 125` contributes exactly 2 minutes. -/
theorem C1_actual_minutes_precedence :
    (∀ s, dayActualMinutes s = amendedActualMinutes s) ∧
    (∀ s, weekActualMinutes s = amendedActualMinutes s) ∧
    (∀ s, weekDayActualMinutes s = amendedActualMinutes s) ∧
    (∀ s, monthActualMinutes s = amendedActualMinutes s) ∧
    (∀ s, monthWeekActualMinutes s = amendedActualMinutes s) ∧
    (∀ s, yearActualMinutes s = amendedActualMinutes s) ∧
    (∀ sessions date, (GetDayStats sessions date).TotalMinutes =
      (((GetSessionsByDate sessions date).filter (fun s => s.Completed)).map
        amendedActualMinutes).sum) ∧
    (∀ sessions year week, (GetWeekStats sessions year week).TotalMinutes =
      (((GetWeekSessions sessions year week).filter (fun s => s.Completed)).map
        amendedActualMinutes).sum) ∧
    (∀ sessions year month, (GetMonthStats sessions year month).TotalMinutes =
      (((GetMonthSessions sessions year month).filter (fun s => s.Completed)).map
        amendedActualMinutes).sum) ∧
    (∀ sessions year, (GetYearStats sessions year).TotalMinutes =
      (((GetYearSessions sessions year).filter (fun s => s.Completed)).map
        amendedActualMinutes).sum) ∧
    (∀ s : Session, s.ElapsedSeconds = 125 → amendedActualMinutes s = 2) := by
  refine ⟨dayActual_eq_amended, dayActual_eq_amended, dayActual_eq_amended,
    dayActual_eq_amended, dayActual_eq_amended, dayActual_eq_amended,
    ?_, ?_, ?_, ?_, ?_⟩
  · intro sessions date
    exact rollup_total_eq_sum dayActualMinutes dayActual_eq_amended _
  · intro sessions year week
    exact rollup_total_eq_sum weekActualMinutes dayActual_eq_amended _
  · intro sessions year month
    exact rollup_total_eq_sum monthActualMinutes dayActual_eq_amended _
  · intro sessions year
    exact rollup_total_eq_sum yearActualMinutes dayActual_eq_amended _
  · intro s h
    unfold amendedActualMinutes
    rw [h]
    have h125 : Int.tdiv 125 60 = 2 := by decide
    rw [h125]
    norm_num

/-- A completed session with `elapsedSeconds = 125`, used to instantiate
the precedence theorem. -/
def wC1 : Session :=
  { ID := "w1", StartTime := 100, EndTime := 4000, Duration := 45, Completed := true,
    Date := "2024-03-06", Week := 10, Month := "2024-03", Year := 2024,
    Active := false, ElapsedSeconds := 125, Paused := false }

theorem C1_actual_minutes_precedence_witness :
    amendedActualMinutes wC1 = 2 ∧
      (GetDayStats [wC1] "2024-03-06").TotalMinutes =
        (((GetSessionsByDate [wC1] "2024-03-06").filter (fun s => s.Completed)).map
          amendedActualMinutes).sum :=
  ⟨C1_actual_minutes_precedence.2.2.2.2.2.2.2.2.2.2 wC1 rfl,
   C1_actual_minutes_precedence.2.2.2.2.2.2.1 [wC1] "2024-03-06"⟩

theorem weekDayActual_eq_dayActual : weekDayActualMinutes = dayActualMinutes := rfl

theorem weekDay_filter_eq (sessions : List Session) (year week : Int) (d : String)
    (H : ∀ s ∈ sessions, s.Date = d → s.Year = year ∧ s.Week = week) :
    ((GetWeekSessions sessions year week).filter (fun s => s.Completed)).filter
        (fun s => s.Date = d)
      = (GetSessionsByDate sessions d).filter (fun s => s.Completed) := by
  unfold GetWeekSessions GetSessionsByDate
  rw [List.filter_filter, List.filter_filter, List.filter_filter]
  refine List.filter_congr ?_
  intro s hs
  by_cases hd : s.Date = d
  · have hy := (H s hs hd).1
    have hw := (H s hs hd).2
    simp [hd, hy, hw]
  · simp [hd]

/-- C8 (amended): a per-day sub-rollup of `GetWeekStats` agrees with
`GetDayStats` on the same collection, provided every session of the
collection carrying that date also carries the queried year and ISO week
(the sub-rollup first filters by year and week, `GetDayStats` does not). -/
theorem C8_week_subrollup_eq_day_stats (sessions : List Session) (year week : Int)
    (ds : DayStats) (hds : ds ∈ (GetWeekStats sessions year week).DailyStats)
    (H : ∀ s ∈ sessions, s.Date = ds.Date → s.Year = year ∧ s.Week = week) :
    ds.SessionsCount = (GetDayStats sessions ds.Date).SessionsCount ∧
    ds.TotalMinutes = (GetDayStats sessions ds.Date).TotalMinutes := by
  simp only [GetWeekStats, List.mem_map] at hds
  obtain ⟨d, _, rfl⟩ := hds
  simp only at H ⊢
  have hfe := weekDay_filter_eq sessions year week d H
  constructor
  · show (((((GetWeekSessions sessions year week).filter (fun s => s.Completed)).filter
        (fun s => s.Date = d)).length : Int)) = _
    rw [hfe]
    simp only [GetDayStats, statsLoop_eq]
    simp
  · show ((((GetWeekSessions sessions year week).filter (fun s => s.Completed)).filter
        (fun s => s.Date = d)).map weekDayActualMinutes).sum = _
    rw [hfe, weekDayActual_eq_dayActual]
    simp only [GetDayStats, statsLoop_eq]
    simp

/-- First completed session of the C8 counterexample store: ISO week 10. -/
def cx8a : Session :=
  { ID := "a8", StartTime := 1000, EndTime := 2800, Duration := 30, Completed := true,
    Date := "2024-03-05", Week := 10, Month := "2024-03", Year := 2024,
    Active := false, ElapsedSeconds := 1800, Paused := false }

/-- Second completed session of the C8 counterexample store: same date
string but week field 11. -/
def cx8b : Session :=
  { ID := "b8", StartTime := 5000, EndTime := 8600, Duration := 60, Completed := true,
    Date := "2024-03-05", Week := 11, Month := "2024-03", Year := 2024,
    Active := false, ElapsedSeconds := 3600, Paused := false }

/-- C8 counterexample: on a collection holding two completed sessions
with the same date but different week fields, the per-day sub-rollup of
`GetWeekStats 2024 10` counts 1 session while `GetDayStats` on the same
date and collection counts 2 — the claim fails without a week-consistency
assumption on the collection. -/
theorem C8_claim_counterexample :
    ((GetWeekStats [cx8a, cx8b] 2024 10).DailyStats.map (fun ds => ds.Date))
        = ["2024-03-05"] ∧
    ((GetWeekStats [cx8a, cx8b] 2024 10).DailyStats.map (fun ds => ds.SessionsCount))
        = [1] ∧
    (GetDayStats [cx8a, cx8b] "2024-03-05").SessionsCount = 2 ∧ (1 : Int) ≠ 2 := by
  refine ⟨by decide, by decide, by decide, by decide⟩

/-- The single completed session of the C8 witness store. -/
def w8 : Session :=
  { ID := "w8", StartTime := 1000, EndTime := 2800, Duration := 30, Completed := true,
    Date := "2024-03-05", Week := 10, Month := "2024-03", Year := 2024,
    Active := false, ElapsedSeconds := 1800, Paused := false }

/-- The per-day sub-rollup `GetWeekStats [w8] 2024 10` produces. -/
def w8d : DayStats :=
  { Date := "2024-03-05", SessionsCount := 1, TotalMinutes := 30, Sessions := [w8] }

theorem C8_week_subrollup_eq_day_stats_witness :
    w8d.SessionsCount = (GetDayStats [w8] w8d.Date).SessionsCount ∧
    w8d.TotalMinutes = (GetDayStats [w8] w8d.Date).TotalMinutes :=
  C8_week_subrollup_eq_day_stats [w8] 2024 10 w8d (by decide) (by decide)

theorem saveSession_not_found (store : List Session) (s : Session)
    (h : ∀ t ∈ store, t.ID ≠ s.ID) :
    SaveSession store s = store ++ [s] := by
  induction store with
  | nil => rfl
  | cons t rest ih =>
    have ht : t.ID ≠ s.ID := h t (by simp)
    simp only [SaveSession, if_neg ht, List.cons_append, List.cons.injEq, true_and]
    exact ih (fun u hu => h u (by simp [hu]))

theorem saveSession_found (pre : List Session) (old : Session) (post : List Session)
    (s : Session) (hid : old.ID = s.ID) (hpre : ∀ t ∈ pre, t.ID ≠ s.ID) :
    SaveSession (pre ++ old :: post) s = pre ++ s :: post := by
  induction pre with
  | nil => simp [SaveSession, hid]
  | cons t rest ih =>
    have ht : t.ID ≠ s.ID := hpre t (by simp)
    simp only [List.cons_append, SaveSession, if_neg ht, List.cons.injEq, true_and]
    exact ih (fun u hu => hpre u (by simp [hu]))

/-- C9: `SaveSession` appends at the end when no stored record carries the
incoming id, and otherwise replaces the first record with that id in
place — every other record is unchanged field-for-field and keeps its
position. -/
theorem C9_append_or_update (store : List Session) (s : Session) :
    ((∀ t ∈ store, t.ID ≠ s.ID) → SaveSession store s = store ++ [s]) ∧
    (∀ pre old post, store = pre ++ old :: post → old.ID = s.ID →
      (∀ t ∈ pre, t.ID ≠ s.ID) → SaveSession store s = pre ++ s :: post) :=
  ⟨saveSession_not_found store s,
   fun pre old post hst hid hpre => hst ▸ saveSession_found pre old post s hid hpre⟩

/-- A stored record not matching the C9 witness update. -/
def w9a : Session :=
  { ID := "keep", StartTime := 10, EndTime := 0, Duration := 30, Completed := false,
    Date := "2024-03-05", Week := 10, Month := "2024-03", Year := 2024,
    Active := false, ElapsedSeconds := 40, Paused := true }

/-- The stored record the C9 witness update replaces. -/
def w9b : Session :=
  { ID := "upd", StartTime := 20, EndTime := 0, Duration := 30, Completed := false,
    Date := "2024-03-05", Week := 10, Month := "2024-03", Year := 2024,
    Active := true, ElapsedSeconds := 5, Paused := false }

/-- The incoming record of the C9 witness, same id as `w9b`. -/
def w9s : Session :=
  { ID := "upd", StartTime := 20, EndTime := 500, Duration := 30, Completed := true,
    Date := "2024-03-05", Week := 10, Month := "2024-03", Year := 2024,
    Active := false, ElapsedSeconds := 1800, Paused := false }

theorem C9_append_or_update_witness :
    SaveSession [w9a, w9b] w9s = [w9a, w9s] ∧
    SaveSession [w9a] w9b = [w9a, w9b] :=
  ⟨(C9_append_or_update [w9a, w9b] w9s).2 [w9a] w9b [] rfl rfl (by decide),
   (C9_append_or_update [w9a] w9b).1 (by decide)⟩

theorem getActive_found (pre : List Session) (a : Session) (post : List Session)
    (ha : (a.Active && !a.Completed) = true)
    (hpre : ∀ b ∈ pre, (b.Active && !b.Completed) = false) :
    GetActiveSession (pre ++ a :: post) = some a := by
  induction pre with
  | nil => simp [GetActiveSession, List.find?_cons_of_pos, ha]
  | cons t rest ih =>
    have ht : (t.Active && !t.Completed) = false := hpre t (by simp)
    simp only [GetActiveSession, List.cons_append] at ih ⊢
    rw [List.find?_cons_of_neg _ (by simp [ht])]
    exact ih (fun u hu => hpre u (by simp [hu]))

/-- C10: `GetActiveSession` never fails on stores holding several
`active ∧ not completed` records — it returns the first such record in
stored order, and returns `none` exactly when no record satisfies the
predicate. -/
theorem C10_get_active_first (store : List Session) :
    (GetActiveSession store = none ↔
      ∀ s ∈ store, ¬(s.Active = true ∧ s.Completed = false)) ∧
    (∀ pre a post, store = pre ++ a :: post →
      a.Active = true → a.Completed = false →
      (∀ b ∈ pre, ¬(b.Active = true ∧ b.Completed = false)) →
      GetActiveSession store = some a) := by
  constructor
  · rw [GetActiveSession, List.find?_eq_none]
    constructor
    · intro h s hs hsa
      have := h s hs
      simp [hsa.1, hsa.2] at this
    · intro h s hs
      by_cases hc : s.Active = true ∧ s.Completed = false
      · exact absurd hc (h s hs)
      · simp only [Bool.and_eq_true, Bool.not_eq_true']
        intro hcon
        exact hc ⟨hcon.1, hcon.2⟩
  · intro pre a post hst ha hc hpre
    subst hst
    refine getActive_found pre a post (by simp [ha, hc]) ?_
    intro b hb
    have := hpre b hb
    by_cases hba : b.Active = true
    · by_cases hbc : b.Completed = false
      · exact absurd ⟨hba, hbc⟩ this
      · simp only [Bool.not_eq_false] at hbc
        simp [hbc]
    · simp only [Bool.not_eq_true] at hba
      simp [hba]

/-- First active record of the C10 witness store. -/
def w10a : Session :=
  { ID := "x10", StartTime := 10, EndTime := 0, Duration := 30, Completed := false,
    Date := "2024-03-05", Week := 10, Month := "2024-03", Year := 2024,
    Active := true, ElapsedSeconds := 40, Paused := true }

/-- Second active record of the C10 witness store. -/
def w10b : Session :=
  { ID := "y10", StartTime := 20, EndTime := 0, Duration := 30, Completed := false,
    Date := "2024-03-05", Week := 10, Month := "2024-03", Year := 2024,
    Active := true, ElapsedSeconds := 5, Paused := false }

theorem C10_get_active_first_witness :
    GetActiveSession [w10a, w10b] = some w10a :=
  (C10_get_active_first [w10a, w10b]).2 [] w10a [w10b] rfl rfl rfl (by simp)

/-- The three observable conditions of reading a persisted JSON file:
absent (`os.IsNotExist`), present but failing to unmarshal, present and
well-formed with decoded value `val`. -/
inductive FileState (α : Type) where
  | missing
  | malformed
  | wellFormed (val : α)
deriving DecidableEq

/-- `storage.SaveConfig`: wholesale rewrite of the config file. -/
def SaveConfig (c : Config) : FileState Config := .wellFormed c

/-- `storage.GetAllSessions` at the file level: a missing file is an
empty collection, a well-formed file its decoded records, an unmarshal
failure an error. -/
def ReadAllSessions : FileState (List Session) → Except Unit (List Session)
  | .missing => .ok []
  | .malformed => .error ()
  | .wellFormed l => .ok l

/-- `storage.GetConfig` at the file level: a missing file constructs the
default config, persists it via `SaveConfig`, and returns it; a
well-formed file returns its decoded record unchanged; an unmarshal
failure is an error.  The result pairs the returned config with the
config file's state after the call. -/
def ReadConfig : FileState Config → Except Unit (Config × FileState Config)
  | .missing => .ok (DefaultConfig, SaveConfig DefaultConfig)
  | .malformed => .error ()
  | .wellFormed c => .ok (c, .wellFormed c)

/-- C7: a missing sessions file reads as the empty collection with no
error, and a missing config file yields the default config, persisted as
a side effect, with no error. -/
theorem C7_missing_files_not_errors :
    ReadAllSessions .missing = .ok [] ∧
    ReadConfig .missing = .ok (DefaultConfig, SaveConfig DefaultConfig) ∧
    SaveConfig DefaultConfig = .wellFormed DefaultConfig :=
  ⟨rfl, rfl, rfl⟩

/-- The three persisted-store operations of the at-most-one-active claim,
carrying the record the state machine writes: `start` is
`startNewSession` (deactivate everything, then persist the fresh record
with `active = true`); `cancel` and `complete` persist the in-flight
record back with `active = false` (`cancelSession` / `completeSession`). -/
inductive StoreOp where
  | start (s : Session)
  | cancel (s : Session) (now e : Int)
  | complete (s : Session) (now e : Int)

/-- Effect of one operation on the persisted collection. -/
def applyOp (store : List Session) : StoreOp → List Session
  | .start s =>
      SaveSession (DeactivateAllSessions store)
        { s with EndTime := 0, Completed := false, Active := true,
                 ElapsedSeconds := 0, Paused := false }
  | .cancel s now e =>
      SaveSession store
        { s with EndTime := now, Completed := false, Active := false, ElapsedSeconds := e }
  | .complete s now e =>
      SaveSession store
        { s with EndTime := now, Completed := true, Active := false, ElapsedSeconds := e }

/-- Effect of a sequence of operations. -/
def applyOps (store : List Session) : List StoreOp → List Session :=
  List.foldl applyOp store

/-- Number of records with `active = true`. -/
def activeCount (store : List Session) : Nat := store.countP (fun s => s.Active)

/-- The invariant of claim C2. -/
def AtMostOneActive (store : List Session) : Prop := activeCount store ≤ 1

theorem activeCount_deactivateAll (store : List Session) :
    activeCount (DeactivateAllSessions store) = 0 := by
  induction store with
  | nil => rfl
  | cons t rest ih =>
    simp only [DeactivateAllSessions, List.map_cons, activeCount, List.countP_cons] at ih ⊢
    simp [ih]

theorem activeCount_saveSession (store : List Session) (s : Session) :
    activeCount (SaveSession store s)
      ≤ activeCount store + (if s.Active then 1 else 0) := by
  induction store with
  | nil =>
    by_cases h : s.Active = true <;> simp [SaveSession, activeCount, List.countP_cons, h]
  | cons t rest ih =>
    by_cases hid : t.ID = s.ID
    · simp only [SaveSession, if_pos hid, activeCount, List.countP_cons]
      by_cases h : s.Active = true <;> by_cases ht : t.Active = true <;>
        simp [h, ht]
    · simp only [SaveSession, if_neg hid, activeCount, List.countP_cons]
      simp only [activeCount] at ih
      by_cases ht : t.Active = true <;> simp [ht] <;> omega

theorem applyOp_preserves_atMostOneActive (store : List Session) (op : StoreOp)
    (h : AtMostOneActive store) : AtMostOneActive (applyOp store op) := by
  cases op with
  | start s =>
    have hb := activeCount_saveSession (DeactivateAllSessions store)
      { s with EndTime := 0, Completed := false, Active := true,
               ElapsedSeconds := 0, Paused := false }
    rw [activeCount_deactivateAll] at hb
    simpa [applyOp, AtMostOneActive] using hb.trans (by norm_num)
  | cancel s now e =>
    have hb := activeCount_saveSession store
      { s with EndTime := now, Completed := false, Active := false, ElapsedSeconds := e }
    show AtMostOneActive (SaveSession store
      { s with EndTime := now, Completed := false, Active := false, ElapsedSeconds := e })
    unfold AtMostOneActive at h ⊢
    simp only [Bool.false_eq_true, if_false, Nat.add_zero] at hb
    omega
  | complete s now e =>
    have hb := activeCount_saveSession store
      { s with EndTime := now, Completed := true, Active := false, ElapsedSeconds := e }
    show AtMostOneActive (SaveSession store
      { s with EndTime := now, Completed := true, Active := false, ElapsedSeconds := e })
    unfold AtMostOneActive at h ⊢
    simp only [Bool.false_eq_true, if_false, Nat.add_zero] at hb
    omega

/-- C2: starting from any collection with at most one active record (in
particular the empty one), after any sequence of start / cancel /
complete operations — where start first deactivates every stored record
and then persists the fresh record with `active = true` — at most one
persisted record has `active = true`; quantifying over all sequences
covers every intermediate observation point. -/
theorem C2_at_most_one_active (store : List Session) (ops : List StoreOp)
    (h : AtMostOneActive store) : AtMostOneActive (applyOps store ops) := by
  induction ops generalizing store with
  | nil => exact h
  | cons op rest ih =>
    exact ih (applyOp store op) (applyOp_preserves_atMostOneActive store op h)

/-- Creation-time template for the C2 witness operations. -/
def w2a : Session :=
  { ID := "s2a", StartTime := 100, EndTime := 0, Duration := 30, Completed := false,
    Date := "2024-03-05", Week := 10, Month := "2024-03", Year := 2024,
    Active := true, ElapsedSeconds := 0, Paused := false }

/-- Second creation-time template for the C2 witness operations. -/
def w2b : Session :=
  { ID := "s2b", StartTime := 2000, EndTime := 0, Duration := 30, Completed := false,
    Date := "2024-03-05", Week := 10, Month := "2024-03", Year := 2024,
    Active := true, ElapsedSeconds := 0, Paused := false }

theorem C2_at_most_one_active_witness :
    AtMostOneActive (applyOps []
      [.start w2a, .complete w2a 1900 1800, .start w2b, .cancel w2b 2300 300]) :=
  C2_at_most_one_active []
    [.start w2a, .complete w2a 1900 1800, .start w2b, .cancel w2b 2300 300]
    (by show activeCount [] ≤ 1; decide)

/-- Explicit handle for the wall-clock-to-bucket-key derivations
(`time.Now().Format("2006-01-02")`, `ISOWeek`, ...): no claim depends on
calendar arithmetic, only on the derived fields being carried along. -/
structure Calendar where
  dateOf : Int → String
  weekOf : Int → Int
  monthOf : Int → String
  yearOf : Int → Int

/-- The timer-relevant state of `dashboard.Model`, with the persisted
collection threaded explicitly in place of the storage handle.  The view
state, cached statistics, export/quit flags and rendering fields are UI
presentation concerns with no effect on the session or the store and are
not modelled. -/
structure DashState where
  store : List Session
  config : Config
  activeSession : Option Session
  timerRunning : Bool
  timerPaused : Bool
  timerElapsed : Int
  timerDuration : Int
deriving DecidableEq, Repr

/-- The elapsed-time reconstruction of `dashboard.New` for a recovered
active session: the persisted `elapsedSeconds` if it was paused, else the
wall-clock difference since `startTime`, capped at `duration*60`. -/
def reconstructElapsed (a : Session) (now : Int) : Int :=
  if !a.Paused then
    let e := now - a.StartTime
    if e > a.Duration * 60 then a.Duration * 60 else e
  else a.ElapsedSeconds

/-- `dashboard.New`: load the active session, and if one exists set up
the running timer state from it. -/
def dashNew (store : List Session) (config : Config) (now : Int) : DashState :=
  match GetActiveSession store with
  | none =>
      { store := store, config := config, activeSession := none,
        timerRunning := false, timerPaused := false, timerElapsed := 0,
        timerDuration := config.SessionDuration * 60 }
  | some a =>
      { store := store, config := config, activeSession := some a,
        timerRunning := true, timerPaused := a.Paused,
        timerElapsed := reconstructElapsed a now,
        timerDuration := a.Duration * 60 }

/-- The events of `dashboard.Update` that touch the session or the
store; each carries the `time.Now()` values the handler reads, and the
start key carries the fresh `uuid.New()` string. -/
inductive DashEv where
  | tick (now : Int)
  | keyStart (id : String) (now : Int)
  | keyPause
  | keyResume
  | keyCancel (now : Int)
  | keyQuit

/-- `dashboard.startNewSession`: deactivate every stored record, persist
the fresh active record, arm the timer. -/
def startNewSession (cal : Calendar) (st : DashState) (id : String) (now : Int) : DashState :=
  let session : Session :=
    { ID := id, StartTime := now, EndTime := 0,
      Duration := st.config.SessionDuration, Completed := false,
      Date := cal.dateOf now, Week := cal.weekOf now,
      Month := cal.monthOf now, Year := cal.yearOf now,
      Active := true, ElapsedSeconds := 0, Paused := false }
  { st with
    store := SaveSession (DeactivateAllSessions st.store) session,
    activeSession := some session,
    timerRunning := true, timerPaused := false, timerElapsed := 0,
    timerDuration := st.config.SessionDuration * 60 }

/-- `dashboard.completeSession` (the statistics-cache refresh it also
performs has no effect on the store or the session). -/
def completeSession (st : DashState) (now : Int) : DashState :=
  match st.activeSession with
  | some a =>
      let a1 : Session :=
        { a with EndTime := now, Completed := true, Active := false,
                 ElapsedSeconds := st.timerElapsed }
      { st with
        store := SaveSession st.store a1, activeSession := none,
        timerRunning := false, timerPaused := false, timerElapsed := 0 }
  | none =>
      { st with
        activeSession := none, timerRunning := false,
        timerPaused := false, timerElapsed := 0 }

/-- `dashboard.cancelSession`. -/
def cancelSession (st : DashState) (now : Int) : DashState :=
  match st.activeSession with
  | some a =>
      let a1 : Session :=
        { a with EndTime := now, Completed := false, Active := false,
                 ElapsedSeconds := st.timerElapsed }
      { st with
        store := SaveSession st.store a1, activeSession := none,
        timerRunning := false, timerPaused := false, timerElapsed := 0 }
  | none =>
      { st with
        activeSession := none, timerRunning := false,
        timerPaused := false, timerElapsed := 0 }

/-- One step of `dashboard.Update` (guards exactly as in the source;
events that fail their guard leave the model unchanged). -/
def dashStep (cal : Calendar) (st : DashState) : DashEv → DashState
  | .tick now =>
      if st.timerRunning && !st.timerPaused then
        let e := st.timerElapsed + 1
        let st1 : DashState :=
          if Int.tmod e 10 = 0 then
            match st.activeSession with
            | some a =>
                let a1 := { a with ElapsedSeconds := e }
                { st with
                  store := SaveSession st.store a1,
                  activeSession := some a1, timerElapsed := e }
            | none => { st with timerElapsed := e }
          else { st with timerElapsed := e }
        if st1.timerDuration ≤ st1.timerElapsed then completeSession st1 now else st1
      else st
  | .keyStart id now =>
      if !st.timerRunning then startNewSession cal st id now else st
  | .keyPause =>
      if st.timerRunning && !st.timerPaused then
        match st.activeSession with
        | some a =>
            let a1 := { a with Paused := true, ElapsedSeconds := st.timerElapsed }
            { st with
              timerPaused := true,
              store := SaveSession st.store a1, activeSession := some a1 }
        | none => { st with timerPaused := true }
      else st
  | .keyResume =>
      if st.timerRunning && st.timerPaused then
        match st.activeSession with
        | some a =>
            let a1 := { a with Paused := false }
            { st with
              timerPaused := false,
              store := SaveSession st.store a1, activeSession := some a1 }
        | none => { st with timerPaused := false }
      else st
  | .keyCancel now =>
      if st.timerRunning then cancelSession st now else st
  | .keyQuit =>
      if st.timerRunning then
        match st.activeSession with
        | some a =>
            let a1 := { a with ElapsedSeconds := st.timerElapsed, Paused := st.timerPaused }
            { st with store := SaveSession st.store a1, activeSession := some a1 }
        | none => st
      else st

/-- A dashboard process run: `dashboard.New` state driven through a
sequence of events. -/
def dashRun (cal : Calendar) (st : DashState) (evs : List DashEv) : DashState :=
  evs.foldl (dashStep cal) st

/-- The state of `timer.Model` with the persisted collection threaded
explicitly (progress-bar, size and key-map fields are rendering concerns
and are not modelled). -/
structure TimerModel where
  duration : Int
  elapsed : Int
  running : Bool
  paused : Bool
  finished : Bool
  cancelled : Bool
  exitToMenu : Bool
  currentSession : Option Session
  isResuming : Bool
deriving DecidableEq, Repr

/-- `timer.New` (duration argument in minutes). -/
def timerNew (durationMinutes : Int) : TimerModel :=
  { duration := durationMinutes * 60, elapsed := 0, running := false, paused := false,
    finished := false, cancelled := false, exitToMenu := false,
    currentSession := none, isResuming := false }

/-- `timer.NewFromSession`. -/
def timerNewFromSession (s : Session) : TimerModel :=
  { duration := s.Duration * 60, elapsed := s.ElapsedSeconds, running := true,
    paused := s.Paused, finished := false, cancelled := false, exitToMenu := false,
    currentSession := some s, isResuming := true }

/-- The events of `timer.Update` that touch the session or the store
(the back key only quits the view and is not modelled). -/
inductive TimerEv where
  | keyStart (id : String) (now : Int)
  | keyPause
  | keyResume
  | keyCancel (now : Int)
  | keyMenu
  | keyHome
  | keyQuit
  | tick (now : Int)

/-- One step of `timer.Update` on the model and the persisted
collection, guards exactly as in the source. -/
def timerStep (cal : Calendar) : TimerModel × List Session → TimerEv → TimerModel × List Session
  | (m, store), .keyStart id now =>
      if !m.running && !m.finished then
        let store1 := DeactivateAllSessions store
        let session : Session :=
          { ID := id, StartTime := now, EndTime := 0,
            Duration := Int.tdiv m.duration 60, Completed := false,
            Date := cal.dateOf now, Week := cal.weekOf now,
            Month := cal.monthOf now, Year := cal.yearOf now,
            Active := true, ElapsedSeconds := 0, Paused := false }
        ({ m with running := true, paused := false, currentSession := some session },
         SaveSession store1 session)
      else (m, store)
  | (m, store), .keyPause =>
      if m.running && !m.paused then
        match m.currentSession with
        | some c =>
            let c1 : Session := { c with Paused := true, ElapsedSeconds := m.elapsed }
            ({ m with paused := true, currentSession := some c1 }, SaveSession store c1)
        | none => ({ m with paused := true }, store)
      else (m, store)
  | (m, store), .keyResume =>
      if m.running && m.paused then
        match m.currentSession with
        | some c =>
            let c1 : Session := { c with Paused := false }
            ({ m with paused := false, currentSession := some c1 }, SaveSession store c1)
        | none => ({ m with paused := false }, store)
      else (m, store)
  | (m, store), .keyCancel now =>
      if m.running then
        match m.currentSession with
        | some c =>
            let c1 : Session := { c with EndTime := now, Completed := false, Active := false }
            ({ m with
               running := false, cancelled := true, finished := true,
               currentSession := some c1 }, SaveSession store c1)
        | none =>
            ({ m with running := false, cancelled := true, finished := true }, store)
      else (m, store)
  | (m, store), .keyMenu =>
      if m.running && !m.finished then
        match m.currentSession with
        | some c =>
            let c1 : Session := { c with ElapsedSeconds := m.elapsed, Paused := m.paused }
            ({ m with exitToMenu := true, currentSession := some c1 }, SaveSession store c1)
        | none => ({ m with exitToMenu := true }, store)
      else (m, store)
  | (m, store), .keyHome =>
      match m.currentSession with
      | some c =>
          if m.running && !m.finished then
            let c1 : Session := { c with ElapsedSeconds := m.elapsed, Paused := true }
            ({ m with exitToMenu := true, currentSession := some c1 }, SaveSession store c1)
          else ({ m with exitToMenu := true }, store)
      | none => ({ m with exitToMenu := true }, store)
  | (m, store), .keyQuit =>
      if m.running && !m.finished then
        match m.currentSession with
        | some c =>
            let c1 : Session := { c with ElapsedSeconds := m.elapsed, Paused := true }
            ({ m with currentSession := some c1 }, SaveSession store c1)
        | none => (m, store)
      else (m, store)
  | (m, store), .tick now =>
      if m.running && !m.paused && !m.finished then
        let e := m.elapsed + 1
        let ms1 : TimerModel × List Session :=
          if Int.tmod e 10 = 0 then
            match m.currentSession with
            | some c =>
                let c1 : Session := { c with ElapsedSeconds := e }
                ({ m with elapsed := e, currentSession := some c1 }, SaveSession store c1)
            | none => ({ m with elapsed := e }, store)
          else ({ m with elapsed := e }, store)
        if ms1.1.duration ≤ ms1.1.elapsed then
          match ms1.1.currentSession with
          | some c =>
              let c2 : Session := { c with EndTime := now, Completed := true, Active := false }
              ({ ms1.1 with finished := true, running := false, currentSession := some c2 },
               SaveSession ms1.2 c2)
          | none => ({ ms1.1 with finished := true, running := false }, ms1.2)
        else ms1
      else (m, store)

/-- A timer-view run: a model and store driven through a sequence of
events. -/
def timerRun (cal : Calendar) (ms : TimerModel × List Session) (evs : List TimerEv) :
    TimerModel × List Session :=
  evs.foldl (timerStep cal) ms

theorem self_mem_saveSession (store : List Session) (s : Session) :
    s ∈ SaveSession store s := by
  induction store with
  | nil => simp [SaveSession]
  | cons t rest ih =>
    by_cases h : t.ID = s.ID
    · simp [SaveSession, h]
    · simp [SaveSession, h, ih]

theorem mem_saveSession (store : List Session) (s t : Session)
    (h : t ∈ SaveSession store s) : t ∈ store ∨ t = s := by
  induction store with
  | nil => simpa [SaveSession] using h
  | cons u rest ih =>
    by_cases hu : u.ID = s.ID
    · simp only [SaveSession, if_pos hu, List.mem_cons] at h
      rcases h with h | h
      · right; exact h
      · left; simp [h]
    · simp only [SaveSession, if_neg hu, List.mem_cons] at h
      rcases h with h | h
      · left; simp [h]
      · rcases ih h with h2 | h2
        · left; simp [h2]
        · right; exact h2

theorem saveSession_saveSession_same_id (store : List Session) (c1 c2 : Session)
    (h : c2.ID = c1.ID) :
    SaveSession (SaveSession store c1) c2 = SaveSession store c2 := by
  induction store with
  | nil => simp [SaveSession, h]
  | cons t rest ih =>
    by_cases ht : t.ID = c1.ID
    · have h12 : c1.ID = c2.ID := h.symm
      have ht2 : t.ID = c2.ID := by rw [ht, ← h]
      simp [SaveSession, ht, ht2, h12]
    · have ht2 : ¬ t.ID = c2.ID := by rw [h]; exact ht
      simp [SaveSession, ht, ht2, ih]

theorem dashNew_active (store : List Session) (config : Config) (now : Int)
    (a : Session) (h : GetActiveSession store = some a) :
    dashNew store config now =
      { store := store, config := config, activeSession := some a,
        timerRunning := true, timerPaused := a.Paused,
        timerElapsed := reconstructElapsed a now,
        timerDuration := a.Duration * 60 } := by
  simp [dashNew, h]

theorem dashStep_tick_complete (cal : Calendar) (st : DashState) (a : Session) (t : Int)
    (hr : st.timerRunning = true) (hp : st.timerPaused = false)
    (ha : st.activeSession = some a)
    (hdur : st.timerDuration ≤ st.timerElapsed + 1) :
    dashStep cal st (.tick t) =
      { st with
        store := SaveSession st.store
          { a with EndTime := t, Completed := true, Active := false,
                   ElapsedSeconds := st.timerElapsed + 1 },
        activeSession := none, timerRunning := false, timerPaused := false,
        timerElapsed := 0 } := by
  unfold dashStep
  rw [hr, hp]
  simp only [Bool.not_false, Bool.and_self, if_true, ha]
  by_cases hmod : Int.tmod (st.timerElapsed + 1) 10 = 0
  · rw [if_pos hmod]
    simp only [if_pos hdur, completeSession]
    rw [saveSession_saveSession_same_id st.store
      { a with ElapsedSeconds := st.timerElapsed + 1 }
      { a with EndTime := t, Completed := true, Active := false,
               ElapsedSeconds := st.timerElapsed + 1 } rfl]
  · rw [if_neg hmod]
    simp only [if_pos hdur, completeSession, ha]

/-- C3: on process start with a recovered active session, the
reconstructed elapsed time is the persisted `elapsedSeconds` exactly when
the session was paused, and otherwise the wall-clock difference
`now - startTime` clamped above by `plannedDuration*60`; a non-paused
session 45 minutes old with a 30-minute plan reconstructs to 1800
seconds and completes on the first subsequent tick, persisted with
`completed = true` and `active = false`. -/
theorem C3_resume_reconstruction (store : List Session) (config : Config) (now : Int)
    (a : Session) (h : GetActiveSession store = some a) :
    ((dashNew store config now).activeSession = some a) ∧
    (a.Paused = true → (dashNew store config now).timerElapsed = a.ElapsedSeconds) ∧
    (a.Paused = false →
      (dashNew store config now).timerElapsed = min (now - a.StartTime) (a.Duration * 60)) ∧
    (a.Paused = false → now - a.StartTime = 2700 → a.Duration = 30 →
      (dashNew store config now).timerElapsed = 1800 ∧
      ∀ cal t, (dashStep cal (dashNew store config now) (.tick t)).timerRunning = false ∧
        ({ a with EndTime := t, Completed := true, Active := false, ElapsedSeconds := 1801 }
            : Session) ∈ (dashStep cal (dashNew store config now) (.tick t)).store) := by
  rw [dashNew_active store config now a h]
  refine ⟨rfl, ?_, ?_, ?_⟩
  · intro hp
    simp [reconstructElapsed, hp]
  · intro hp
    simp only [reconstructElapsed, hp, Bool.not_false, if_true]
    rcases le_or_lt (now - a.StartTime) (a.Duration * 60) with hle | hlt
    · rw [if_neg (not_lt.mpr hle), min_eq_left hle]
    · rw [if_pos hlt, min_eq_right hlt.le]
  · intro hp h45 hd30
    have he : reconstructElapsed a now = 1800 := by
      simp only [reconstructElapsed, hp, Bool.not_false, if_true]
      rw [h45, hd30]
      norm_num
    refine ⟨he, ?_⟩
    intro cal t
    have hstep := dashStep_tick_complete cal
      { store := store, config := config, activeSession := some a,
        timerRunning := true, timerPaused := a.Paused,
        timerElapsed := reconstructElapsed a now,
        timerDuration := a.Duration * 60 } a t rfl (by simpa using hp) rfl
      (by simp only [he, hd30]; norm_num)
    rw [hstep]
    constructor
    · rfl
    · simp only [he]
      exact self_mem_saveSession store _

/-- A concrete calendar handle for witnesses. -/
def constCal : Calendar :=
  { dateOf := fun _ => "2024-03-05", weekOf := fun _ => 10,
    monthOf := fun _ => "2024-03", yearOf := fun _ => 2024 }

/-- A 30-minute-session config for witnesses. -/
def cfg30 : Config :=
  { SessionDuration := 30, DailySessionGoal := 8, WorkStartHour := 8, WorkEndHour := 16 }

/-- The recovered active session of the C3 witness: started at time 0,
never paused, 30-minute plan. -/
def wA3 : Session :=
  { ID := "r3", StartTime := 0, EndTime := 0, Duration := 30, Completed := false,
    Date := "2024-03-05", Week := 10, Month := "2024-03", Year := 2024,
    Active := true, ElapsedSeconds := 0, Paused := false }

theorem C3_resume_reconstruction_witness :
    (dashNew [wA3] cfg30 2700).timerElapsed = 1800 ∧
    (dashStep constCal (dashNew [wA3] cfg30 2700) (.tick 2701)).timerRunning = false :=
  have h := C3_resume_reconstruction [wA3] cfg30 2700 wA3 (by decide)
  ⟨(h.2.2.2 rfl (by decide) rfl).1, ((h.2.2.2 rfl (by decide) rfl).2 constCal 2701).1⟩

theorem dashStep_tick_run (cal : Calendar) (st : DashState) (now : Int)
    (hr : st.timerRunning = true) (hp : st.timerPaused = false)
    (hlt : st.timerElapsed + 1 < st.timerDuration) :
    (dashStep cal st (.tick now)).timerElapsed = st.timerElapsed + 1 ∧
    (dashStep cal st (.tick now)).timerRunning = true := by
  unfold dashStep
  rw [hr, hp]
  simp only [Bool.not_false, Bool.and_self, if_true]
  by_cases hmod : Int.tmod (st.timerElapsed + 1) 10 = 0
  · rw [if_pos hmod]
    cases ha : st.activeSession with
    | some a => simp [if_neg (not_le.mpr hlt)]
    | none => simp [if_neg (not_le.mpr hlt)]
  · rw [if_neg hmod]
    simp [if_neg (not_le.mpr hlt)]

/-- The completed record of the C4 sixty-tick scenario. -/
def s4done : Session :=
  { ID := "a4", StartTime := 0, EndTime := 100, Duration := 1, Completed := true,
    Date := "2024-03-05", Week := 10, Month := "2024-03", Year := 2024,
    Active := false, ElapsedSeconds := 60, Paused := false }

/-- C4: while running and not paused each tick adds exactly one second;
as soon as the incremented elapsed reaches the planned `duration*60` the
step completes the session — timer stopped, record persisted with
`endTime = now`, `completed = true`, `active = false` — and once the
timer is stopped further ticks change nothing; concretely, starting a
1-minute session and ticking 60 times leaves a persisted record with
`elapsedSeconds = 60`, `completed = true`, `active = false`. -/
theorem C4_tick_to_completion :
    (∀ cal (st : DashState) now, st.timerRunning = true → st.timerPaused = false →
      st.timerElapsed + 1 < st.timerDuration →
      (dashStep cal st (.tick now)).timerElapsed = st.timerElapsed + 1 ∧
      (dashStep cal st (.tick now)).timerRunning = true) ∧
    (∀ cal (st : DashState) (a : Session) now, st.timerRunning = true →
      st.timerPaused = false → st.activeSession = some a →
      st.timerDuration ≤ st.timerElapsed + 1 →
      (dashStep cal st (.tick now)).timerRunning = false ∧
      ({ a with EndTime := now, Completed := true, Active := false,
                ElapsedSeconds := st.timerElapsed + 1 } : Session)
        ∈ (dashStep cal st (.tick now)).store) ∧
    (∀ cal (st : DashState) now, st.timerRunning = false →
      dashStep cal st (.tick now) = st) ∧
    (timerRun constCal (timerNew 1, ([] : List Session))
        (TimerEv.keyStart "a4" 0 :: List.replicate 60 (TimerEv.tick 100))
      = ({ duration := 60, elapsed := 60, running := false, paused := false,
           finished := true, cancelled := false, exitToMenu := false,
           currentSession := some s4done, isResuming := false }, [s4done])) := by
  refine ⟨fun cal st now hr hp hlt => dashStep_tick_run cal st now hr hp hlt,
    ?_, ?_, by decide⟩
  · intro cal st a now hr hp ha hdur
    rw [dashStep_tick_complete cal st a now hr hp ha hdur]
    exact ⟨rfl, self_mem_saveSession st.store _⟩
  · intro cal st now hr
    simp [dashStep, hr]

/-- The dashboard state the C4 witness instantiates the single-tick parts
with: a running 30-minute timer at 5 elapsed seconds. -/
def wSt4 : DashState :=
  { store := [], config := cfg30, activeSession := some wA3,
    timerRunning := true, timerPaused := false, timerElapsed := 5,
    timerDuration := 1800 }

/-- The dashboard state the C4 witness completes from: one second short
of its 10-second plan. -/
def wSt4b : DashState :=
  { store := [], config := cfg30,
    activeSession := some { wA3 with ElapsedSeconds := 9 },
    timerRunning := true, timerPaused := false, timerElapsed := 9,
    timerDuration := 10 }

theorem C4_tick_to_completion_witness :
    ((dashStep constCal wSt4 (.tick 6)).timerElapsed = 5 + 1 ∧
      (dashStep constCal wSt4 (.tick 6)).timerRunning = true) ∧
    ((dashStep constCal wSt4b (.tick 10)).timerRunning = false ∧
      ({ wA3 with EndTime := 10, Completed := true, Active := false,
                  ElapsedSeconds := 9 + 1 } : Session)
        ∈ (dashStep constCal wSt4b (.tick 10)).store) :=
  ⟨C4_tick_to_completion.1 constCal wSt4 6 rfl rfl (by decide),
   C4_tick_to_completion.2.1 constCal wSt4b { wA3 with ElapsedSeconds := 9 } 10
     rfl rfl rfl (by decide)⟩

/-- C6 counterexample: menu-exit from the timer view while running and
unpaused persists the session with `paused = false` (the session's
current flag), not the forced `paused = true` the claim states; the
record does remain active. -/
theorem C6_claim_counterexample :
    ((timerRun constCal (timerNew 30, ([] : List Session))
        [TimerEv.keyStart "a6" 0, .tick 1, .tick 2, .tick 3, .keyMenu]).2.map
      (fun s => (s.Paused, s.Active, s.ElapsedSeconds)))
      = [(false, true, 3)] ∧ false ≠ true := by
  exact ⟨by decide, by decide⟩

/-- C6 (amended): every exit-without-terminating path persists the
current `elapsedSeconds` and leaves the stored session active (hence
resumable), but only the timer view's home and quit paths force
`paused = true`; the timer view's menu path and the dashboard's quit
path persist the session's current paused flag instead. -/
theorem C6_exit_without_terminating (cal : Calendar) :
    (∀ (m : TimerModel) store (c : Session), m.running = true → m.finished = false →
      m.currentSession = some c →
      timerStep cal (m, store) .keyMenu =
        ({ m with
             exitToMenu := true,
             currentSession := some { c with ElapsedSeconds := m.elapsed, Paused := m.paused } },
         SaveSession store { c with ElapsedSeconds := m.elapsed, Paused := m.paused })) ∧
    (∀ (m : TimerModel) store (c : Session), m.running = true → m.finished = false →
      m.currentSession = some c →
      timerStep cal (m, store) .keyHome =
        ({ m with
             exitToMenu := true,
             currentSession := some { c with ElapsedSeconds := m.elapsed, Paused := true } },
         SaveSession store { c with ElapsedSeconds := m.elapsed, Paused := true })) ∧
    (∀ (m : TimerModel) store (c : Session), m.running = true → m.finished = false →
      m.currentSession = some c →
      timerStep cal (m, store) .keyQuit =
        ({ m with currentSession := some { c with ElapsedSeconds := m.elapsed, Paused := true } },
         SaveSession store { c with ElapsedSeconds := m.elapsed, Paused := true })) ∧
    (∀ (st : DashState) (a : Session), st.timerRunning = true →
      st.activeSession = some a →
      dashStep cal st .keyQuit =
        { st with
          store := SaveSession st.store
            { a with ElapsedSeconds := st.timerElapsed, Paused := st.timerPaused },
          activeSession :=
            some { a with ElapsedSeconds := st.timerElapsed, Paused := st.timerPaused } }) ∧
    (∀ (c : Session) (e : Int) (p : Bool),
      ({ c with ElapsedSeconds := e, Paused := p } : Session).Active = c.Active) := by
  refine ⟨?_, ?_, ?_, ?_, fun c e p => rfl⟩
  · intro m store c hr hf hc
    simp [timerStep, hr, hf, hc]
  · intro m store c hr hf hc
    simp [timerStep, hr, hf, hc]
  · intro m store c hr hf hc
    simp [timerStep, hr, hf, hc]
  · intro st a hr ha
    simp [dashStep, hr, ha]

/-- The timer model the C6 witness exits from. -/
def wTm6 : TimerModel :=
  { duration := 1800, elapsed := 7, running := true, paused := false,
    finished := false, cancelled := false, exitToMenu := false,
    currentSession := some wA3, isResuming := false }

theorem C6_exit_without_terminating_witness :
    timerStep constCal (wTm6, [wA3]) .keyHome =
      ({ wTm6 with
           exitToMenu := true,
           currentSession := some { wA3 with ElapsedSeconds := 7, Paused := true } },
       SaveSession [wA3] { wA3 with ElapsedSeconds := 7, Paused := true }) :=
  (C6_exit_without_terminating constCal).2.1 wTm6 [wA3] wA3 rfl rfl rfl

/-- Per-record bound: completed records exceed their plan by at most one
second (the dashboard tick increments before its completion check);
records still in flight never exceed it. -/
def SInvS (s : Session) : Prop :=
  if s.Completed then s.ElapsedSeconds ≤ s.Duration * 60 + 1
  else s.ElapsedSeconds ≤ s.Duration * 60

/-- Store-wide bound. -/
def SInv (store : List Session) : Prop := ∀ s ∈ store, SInvS s

/-- Inductive invariant of a dashboard process: the store bound, a
nonnegative configured duration, and — while the timer runs — an
in-flight session consistent with the timer fields. -/
def DInv (st : DashState) : Prop :=
  SInv st.store ∧ 0 ≤ st.config.SessionDuration ∧
  (st.timerRunning = true →
    ∃ a, st.activeSession = some a ∧ a.Completed = false ∧
      st.timerElapsed ≤ st.timerDuration ∧ st.timerDuration = a.Duration * 60 ∧
      a.ElapsedSeconds ≤ a.Duration * 60)

theorem SInv_saveSession (store : List Session) (s : Session)
    (hS : SInv store) (hs : SInvS s) : SInv (SaveSession store s) := by
  intro t ht
  rcases mem_saveSession store s t ht with h | h
  · exact hS t h
  · rw [h]; exact hs

theorem SInv_deactivateAll (store : List Session) (hS : SInv store) :
    SInv (DeactivateAllSessions store) := by
  intro t ht
  simp only [DeactivateAllSessions, List.mem_map] at ht
  obtain ⟨u, hu, rfl⟩ := ht
  exact hS u hu

theorem reconstructElapsed_le (a : Session) (now : Int)
    (h : a.ElapsedSeconds ≤ a.Duration * 60) :
    reconstructElapsed a now ≤ a.Duration * 60 := by
  unfold reconstructElapsed
  by_cases hp : a.Paused = true
  · simp [hp, h]
  · simp only [Bool.not_eq_true] at hp
    simp only [hp, Bool.not_false, if_true]
    by_cases hgt : now - a.StartTime > a.Duration * 60
    · rw [if_pos hgt]
    · rw [if_neg hgt]
      exact not_lt.mp hgt

theorem dashNew_DInv (store : List Session) (config : Config) (now : Int)
    (hS : SInv store) (hcfg : 0 ≤ config.SessionDuration) :
    DInv (dashNew store config now) := by
  cases ha : GetActiveSession store with
  | none =>
    refine ⟨?_, ?_, ?_⟩
    · simpa [dashNew, ha] using hS
    · simpa [dashNew, ha] using hcfg
    · intro hr
      simp [dashNew, ha] at hr
  | some a =>
    have ha2 : store.find? (fun s => s.Active && !s.Completed) = some a := ha
    have hmem : a ∈ store := List.mem_of_find?_eq_some ha2
    have hpred := List.find?_some ha2
    have hac : a.Completed = false := by
      simp only [Bool.and_eq_true, Bool.not_eq_true'] at hpred
      exact hpred.2
    have hbound : a.ElapsedSeconds ≤ a.Duration * 60 := by
      have := hS a hmem
      simpa [SInvS, hac] using this
    rw [dashNew_active store config now a ha]
    refine ⟨hS, hcfg, ?_⟩
    intro _
    exact ⟨a, rfl, hac, reconstructElapsed_le a now hbound, rfl, hbound⟩

theorem dashStep_tick_nc_mod (cal : Calendar) (st : DashState) (a : Session) (now : Int)
    (hr : st.timerRunning = true) (hp : st.timerPaused = false)
    (ha : st.activeSession = some a)
    (hmod : Int.tmod (st.timerElapsed + 1) 10 = 0)
    (hlt : ¬ st.timerDuration ≤ st.timerElapsed + 1) :
    dashStep cal st (.tick now) =
      { st with
        store := SaveSession st.store { a with ElapsedSeconds := st.timerElapsed + 1 },
        activeSession := some { a with ElapsedSeconds := st.timerElapsed + 1 },
        timerElapsed := st.timerElapsed + 1 } := by
  unfold dashStep
  rw [hr, hp]
  simp only [Bool.not_false, Bool.and_self, if_true, ha]
  rw [if_pos hmod, if_neg hlt]

theorem dashStep_tick_nc_nomod (cal : Calendar) (st : DashState) (now : Int)
    (hr : st.timerRunning = true) (hp : st.timerPaused = false)
    (hmod : ¬ Int.tmod (st.timerElapsed + 1) 10 = 0)
    (hlt : ¬ st.timerDuration ≤ st.timerElapsed + 1) :
    dashStep cal st (.tick now) = { st with timerElapsed := st.timerElapsed + 1 } := by
  unfold dashStep
  rw [hr, hp]
  simp only [Bool.not_false, Bool.and_self, if_true]
  rw [if_neg hmod, if_neg hlt]

theorem dashStep_DInv (cal : Calendar) (st : DashState) (ev : DashEv)
    (h : DInv st) : DInv (dashStep cal st ev) := by
  obtain ⟨hS, hcfg, hact⟩ := h
  cases ev with
  | tick now =>
    by_cases hr : st.timerRunning = true
    · by_cases hp : st.timerPaused = false
      · obtain ⟨a, ha, hac, hel, hdur, hae⟩ := hact hr
        by_cases hc : st.timerDuration ≤ st.timerElapsed + 1
        · rw [dashStep_tick_complete cal st a now hr hp ha hc]
          refine ⟨?_, hcfg, ?_⟩
          · refine SInv_saveSession _ _ hS ?_
            simp only [SInvS, if_pos]
            show st.timerElapsed + 1 ≤ a.Duration * 60 + 1
            omega
          · intro hfalse
            simp at hfalse
        · by_cases hmod : Int.tmod (st.timerElapsed + 1) 10 = 0
          · rw [dashStep_tick_nc_mod cal st a now hr hp ha hmod hc]
            refine ⟨?_, hcfg, ?_⟩
            · refine SInv_saveSession _ _ hS ?_
              simp only [SInvS, hac, Bool.false_eq_true, if_false]
              show st.timerElapsed + 1 ≤ a.Duration * 60
              omega
            · intro _
              refine ⟨{ a with ElapsedSeconds := st.timerElapsed + 1 }, rfl, hac, ?_, hdur, ?_⟩
              · show st.timerElapsed + 1 ≤ st.timerDuration
                omega
              · show st.timerElapsed + 1 ≤ a.Duration * 60
                omega
          · rw [dashStep_tick_nc_nomod cal st now hr hp hmod hc]
            refine ⟨hS, hcfg, ?_⟩
            intro _
            refine ⟨a, ha, hac, ?_, hdur, hae⟩
            show st.timerElapsed + 1 ≤ st.timerDuration
            omega
      · have hp2 : st.timerPaused = true := by
          simpa [Bool.not_eq_false] using hp
        have : dashStep cal st (.tick now) = st := by
          unfold dashStep
          rw [hp2]
          simp
        rw [this]
        exact ⟨hS, hcfg, hact⟩
    · have hr2 : st.timerRunning = false := by
        simpa [Bool.not_eq_true] using hr
      have : dashStep cal st (.tick now) = st := by
        unfold dashStep
        rw [hr2]
        simp
      rw [this]
      exact ⟨hS, hcfg, hact⟩
  | keyStart id now =>
    by_cases hr : st.timerRunning = true
    · have : dashStep cal st (.keyStart id now) = st := by
        simp [dashStep, hr]
      rw [this]
      exact ⟨hS, hcfg, hact⟩
    · have hr2 : st.timerRunning = false := by
        simpa [Bool.not_eq_true] using hr
      have hstep : dashStep cal st (.keyStart id now) = startNewSession cal st id now := by
        simp [dashStep, hr2]
      rw [hstep]
      have hdd : (0 : Int) ≤ st.config.SessionDuration * 60 :=
        mul_nonneg hcfg (by norm_num)
      refine ⟨?_, hcfg, ?_⟩
      · refine SInv_saveSession _ _ (SInv_deactivateAll _ hS) ?_
        simp only [startNewSession, SInvS, Bool.false_eq_true, if_false]
        exact hdd
      · intro _
        exact ⟨_, rfl, rfl, hdd, rfl, hdd⟩
  | keyPause =>
    by_cases hg : st.timerRunning = true ∧ st.timerPaused = false
    · obtain ⟨a, ha, hac, hel, hdur, hae⟩ := hact hg.1
      have hstep : dashStep cal st .keyPause =
          { st with
            timerPaused := true,
            store := SaveSession st.store
              { a with Paused := true, ElapsedSeconds := st.timerElapsed },
            activeSession := some { a with Paused := true, ElapsedSeconds := st.timerElapsed } } := by
        unfold dashStep
        rw [hg.1, hg.2, ha]
        simp
      rw [hstep]
      refine ⟨?_, hcfg, ?_⟩
      · refine SInv_saveSession _ _ hS ?_
        simp only [SInvS, hac, Bool.false_eq_true, if_false]
        show st.timerElapsed ≤ a.Duration * 60
        omega
      · intro _
        refine ⟨_, rfl, hac, hel, hdur, ?_⟩
        show st.timerElapsed ≤ a.Duration * 60
        omega
    · have hstep : dashStep cal st .keyPause = st := by
        unfold dashStep
        by_cases hr : st.timerRunning = true
        · have hp : st.timerPaused = true := by
            by_cases hp : st.timerPaused = true
            · exact hp
            · exact absurd ⟨hr, by simpa [Bool.not_eq_true] using hp⟩ hg
          rw [hp]
          simp
        · have hr2 : st.timerRunning = false := by
            simpa [Bool.not_eq_true] using hr
          rw [hr2]
          simp
      rw [hstep]
      exact ⟨hS, hcfg, hact⟩
  | keyResume =>
    by_cases hg : st.timerRunning = true ∧ st.timerPaused = true
    · obtain ⟨a, ha, hac, hel, hdur, hae⟩ := hact hg.1
      have hstep : dashStep cal st .keyResume =
          { st with
            timerPaused := false,
            store := SaveSession st.store { a with Paused := false },
            activeSession := some { a with Paused := false } } := by
        unfold dashStep
        rw [hg.1, hg.2, ha]
        simp
      rw [hstep]
      refine ⟨?_, hcfg, ?_⟩
      · refine SInv_saveSession _ _ hS ?_
        simp only [SInvS, hac, Bool.false_eq_true, if_false]
        exact hae
      · intro _
        exact ⟨_, rfl, hac, hel, hdur, hae⟩
    · have hstep : dashStep cal st .keyResume = st := by
        unfold dashStep
        by_cases hr : st.timerRunning = true
        · have hp : st.timerPaused = false := by
            by_cases hp : st.timerPaused = true
            · exact absurd ⟨hr, hp⟩ hg
            · simpa [Bool.not_eq_true] using hp
          rw [hp]
          simp
        · have hr2 : st.timerRunning = false := by
            simpa [Bool.not_eq_true] using hr
          rw [hr2]
          simp
      rw [hstep]
      exact ⟨hS, hcfg, hact⟩
  | keyCancel now =>
    by_cases hr : st.timerRunning = true
    · obtain ⟨a, ha, hac, hel, hdur, hae⟩ := hact hr
      have hstep : dashStep cal st (.keyCancel now) =
          { st with
            store := SaveSession st.store
              { a with EndTime := now, Completed := false, Active := false,
                       ElapsedSeconds := st.timerElapsed },
            activeSession := none, timerRunning := false, timerPaused := false,
            timerElapsed := 0 } := by
        unfold dashStep
        rw [hr]
        simp [cancelSession, ha]
      rw [hstep]
      refine ⟨?_, hcfg, ?_⟩
      · refine SInv_saveSession _ _ hS ?_
        simp only [SInvS, Bool.false_eq_true, if_false]
        show st.timerElapsed ≤ a.Duration * 60
        omega
      · intro hfalse
        simp at hfalse
    · have hstep : dashStep cal st (.keyCancel now) = st := by
        have hr2 : st.timerRunning = false := by
          simpa [Bool.not_eq_true] using hr
        simp [dashStep, hr2]
      rw [hstep]
      exact ⟨hS, hcfg, hact⟩
  | keyQuit =>
    by_cases hr : st.timerRunning = true
    · obtain ⟨a, ha, hac, hel, hdur, hae⟩ := hact hr
      have hstep : dashStep cal st .keyQuit =
          { st with
            store := SaveSession st.store
              { a with ElapsedSeconds := st.timerElapsed, Paused := st.timerPaused },
            activeSession :=
              some { a with ElapsedSeconds := st.timerElapsed, Paused := st.timerPaused } } := by
        unfold dashStep
        rw [hr]
        simp [ha]
      rw [hstep]
      refine ⟨?_, hcfg, ?_⟩
      · refine SInv_saveSession _ _ hS ?_
        simp only [SInvS, hac, Bool.false_eq_true, if_false]
        show st.timerElapsed ≤ a.Duration * 60
        omega
      · intro _
        refine ⟨_, rfl, hac, hel, hdur, ?_⟩
        show st.timerElapsed ≤ a.Duration * 60
        omega
    · have hstep : dashStep cal st .keyQuit = st := by
        have hr2 : st.timerRunning = false := by
          simpa [Bool.not_eq_true] using hr
        simp [dashStep, hr2]
      rw [hstep]
      exact ⟨hS, hcfg, hact⟩

theorem dashRun_DInv (cal : Calendar) (st : DashState) (evs : List DashEv)
    (h : DInv st) : DInv (dashRun cal st evs) := by
  induction evs generalizing st with
  | nil => exact h
  | cons ev rest ih => exact ih (dashStep cal st ev) (dashStep_DInv cal st ev h)

/-- Persisted collections reachable across dashboard process lifetimes:
the empty store, and the store left behind by any dashboard run —
`dashboard.New` at some wall-clock time over a reachable store with a
validated (nonnegative-duration) config, driven through any event
sequence and stopped at any point.  In the shipped wiring the dashboard
is the only view that writes session records (the menu, settings and
help views only read them, and the timer view is not reachable from
`main`). -/
inductive storeReachable : List Session → Prop where
  | nil : storeReachable []
  | run (store : List Session) (cal : Calendar) (config : Config) (now : Int)
      (evs : List DashEv) (hcfg : 0 ≤ config.SessionDuration)
      (h : storeReachable store) :
      storeReachable (dashRun cal (dashNew store config now) evs).store

theorem SInv_of_storeReachable (store : List Session) (h : storeReachable store) :
    SInv store := by
  induction h with
  | nil => intro s hs; cases hs
  | run store cal config now evs hcfg _ ih =>
    exact (dashRun_DInv cal (dashNew store config now) evs
      (dashNew_DInv store config now ih hcfg)).1

/-- C5 (amended): every completed record in a store reachable across
dashboard process lifetimes satisfies
`elapsedSeconds ≤ plannedDurationMinutes*60 + 1`.  The bound is one
second looser than claimed: the dashboard tick increments before its
completion check, so a session whose resume-after-restart reconstruction
was clamped to exactly `plannedDuration*60` completes on the next tick
with one extra second. -/
theorem C5_completed_elapsed_bound (store : List Session) (h : storeReachable store) :
    ∀ s ∈ store, s.Completed = true → s.ElapsedSeconds ≤ s.Duration * 60 + 1 := by
  intro s hs hc
  have := SInv_of_storeReachable store h s hs
  simpa [SInvS, hc] using this

/-- The session the C5 counterexample run persists after the clamped
resume completes on its first tick: 1801 elapsed seconds against a
30-minute plan. -/
def cex5sess : Session :=
  { ID := "c5", StartTime := 0, EndTime := 2700, Duration := 30, Completed := true,
    Date := "2024-03-05", Week := 10, Month := "2024-03", Year := 2024,
    Active := false, ElapsedSeconds := 1801, Paused := false }

/-- The active record persisted by the first C5 run (start, then crash). -/
def cex5mid : Session :=
  { ID := "c5", StartTime := 0, EndTime := 0, Duration := 30, Completed := false,
    Date := "2024-03-05", Week := 10, Month := "2024-03", Year := 2024,
    Active := true, ElapsedSeconds := 0, Paused := false }

theorem cex5_reachable : storeReachable [cex5sess] := by
  have h1 := storeReachable.run [] constCal cfg30 0 [.keyStart "c5" 0]
    (by decide) storeReachable.nil
  have heq1 : (dashRun constCal (dashNew [] cfg30 0) [.keyStart "c5" 0]).store
      = [cex5mid] := by decide
  rw [heq1] at h1
  have h2 := storeReachable.run [cex5mid] constCal cfg30 2700 [.tick 2700]
    (by decide) h1
  have heq2 : (dashRun constCal (dashNew [cex5mid] cfg30 2700) [.tick 2700]).store
      = [cex5sess] := by decide
  rw [heq2] at h2
  exact h2

/-- C5 counterexample: a reachable store (start a 30-minute session at
time 0, crash, restart the process 45 minutes later — the reconstruction
clamps elapsed to 1800 — then one tick) holds a completed record with
`elapsedSeconds = 1801 > 1800 = plannedDuration*60`, refuting the
claimed bound `elapsedSeconds ≤ plannedDuration*60`. -/
theorem C5_claim_counterexample :
    storeReachable [cex5sess] ∧ cex5sess ∈ [cex5sess] ∧
    cex5sess.Completed = true ∧ cex5sess.Duration * 60 < cex5sess.ElapsedSeconds :=
  ⟨cex5_reachable, by decide, by decide, by decide⟩

theorem C5_completed_elapsed_bound_witness :
    cex5sess.ElapsedSeconds ≤ cex5sess.Duration * 60 + 1 :=
  C5_completed_elapsed_bound [cex5sess] cex5_reachable cex5sess (by decide) (by decide)
